import Mathlib

/-!
Verification of `audiofile_read.py` (rp_extract): a shallow embedding of the
module's functions.  External effects (the filesystem, subprocess invocations,
the wavio WAV parser, the uuid-based temp-name generator) are modelled by an
explicit environment `Env` and a world state `World`; each Python function
becomes a Lean function `World → Except Err α × World` (raised exceptions are
`Except.error`, and the world accumulated so far is kept even on error, as in
Python).  Sample data arrays are abstracted away: `wavio.readwav` is modelled
as returning the (samplerate, samplewidth) pair, and `normalize_wav` is
modelled per-sample on rationals (numpy float64 arithmetic is exact for the
integer magnitudes and power-of-two divisors involved here).
-/

namespace RpExtract

/-- Truth of `listPrefixOf a b`: it holds when the char list `a` is a prefix of `b`. -/
def listPrefixOf : List Char → List Char → Bool
  | [], _ => true
  | _ :: _, [] => false
  | a :: as, b :: bs => a == b && listPrefixOf as bs

/-- Sublist test `subIn needle hay`: `needle` occurs as a contiguous sublist of `hay`.
This is the semantics of the Python expression `needle in hay` on strings. -/
def subIn (needle : List Char) : List Char → Bool
  | [] => needle.isEmpty
  | c :: t => listPrefixOf needle (c :: t) || subIn needle t

/-- Python string containment `a in b` (substring test). -/
def strIn (a b : String) : Bool := subIn a.toList b.toList

/-- Python `str.lower()` (ASCII is all that is ever compared here). -/
def strLower (s : String) : String := String.mk (s.toList.map Char.toLower)

/-- Index of the last occurrence of `c` in the list, if any (0-based). -/
def lastIdxAux (c : Char) : List Char → Nat → Option Nat
  | [], _ => none
  | a :: as, i =>
    match lastIdxAux c as (i + 1) with
    | some j => some j
    | none => if a == c then some i else none

def lastIdx (c : Char) (l : List Char) : Option Nat := lastIdxAux c l 0

/-- Python `os.path.splitext` (posix): split at the last dot of the final path
component, unless every character of the component before that dot is a dot
(so `.bashrc` keeps its name).  Mirrors CPython `posixpath.splitext`. -/
def splitext (p : String) : String × String :=
  let l := p.toList
  let sepIdx : Int := match lastIdx '/' l with | some i => (i : Int) | none => -1
  let dotIdx : Int := match lastIdx '.' l with | some i => (i : Int) | none => -1
  if sepIdx < dotIdx then
    let d := dotIdx.toNat
    let s := (sepIdx + 1).toNat
    if ((l.drop s).take (d - s)).any (fun ch => ch != '.') then
      (String.mk (l.take d), String.mk (l.drop d))
    else (p, "")
  else (p, "")

/-- Outcome of one `subprocess.call` attempt, supplied by the environment:
either the process actually ran (with an exit code, creating some files on
disk as a side effect) or launching it failed with an OS errno (errno 2 is
"No such file or directory", i.e. binary not found). -/
inductive CallBehavior
  | runs (exitCode : Nat) (creates : List String)
  | launchFail (errno : Nat)

/-- The external environment: behaviour of subprocess launches (indexed by
how many calls happened before, so distinct invocations may behave
differently), the wavio parser (`none` = parse failure), the temp directory
and the uuid name supply. -/
structure Env where
  call : Nat → List String → CallBehavior
  readwav : String → Option (Nat × Nat)
  tmpdir : String
  uuidName : Nat → String

/-- Python exceptions raised by the module. -/
inductive Err
  | nameError (msg : String)
  | osError (errno : Option Nat) (msg : String)
  | decoderException (msg : String) (cmd : List String)
  | ioError (msg : String)
deriving DecidableEq

/-- The mutable world: the set of files on disk, the uuid counter, the trace
of attempted subprocess invocations, the temp filenames handed out so far
(ghost instrumentation for the cleanup claims) and the log/print trace. -/
structure World where
  files : List String
  tempCtr : Nat
  calls : List (List String)
  temps : List String
  logs : List String
deriving DecidableEq

/-- A stateful, fallible computation (Python function body). -/
abbrev M (α : Type) := World → Except Err α × World

/-- Python `os.remove(p)` guarded by `os.path.exists(p)` (the only removal pattern
in the source). -/
def removeIfExists (p : String) : World → Except Err Unit × World := fun w =>
  if p ∈ w.files then
    (Except.ok (), { w with files := w.files.filter (fun q => q != p) })
  else (Except.ok (), w)

/-- Python `subprocess.call cmd`: records the attempt, then either the process runs
(returning its exit code and creating its output files) or the launch raises
`OSError(errno)`. -/
def callProc (env : Env) (cmd : List String) : M Nat := fun w =>
  let w1 := { w with calls := w.calls ++ [cmd] }
  match env.call w.calls.length cmd with
  | CallBehavior.runs code creates =>
    (Except.ok code,
      { w1 with files := creates.foldl (fun fs p => if p ∈ fs then fs else fs ++ [p]) w1.files })
  | CallBehavior.launchFail errno =>
    (Except.error (Err.osError (some errno) "launch failure"), w1)

/-- Source `get_temp_filename(suffix)`: a fresh name in the temp dir from the uuid
supply; no file is created yet.  The name is also recorded in the ghost
`temps` trace. -/
def get_temp_filename (env : Env) (suffix : String) : M String := fun w =>
  let path := env.tmpdir ++ "/" ++ env.uuidName w.tempCtr ++ suffix
  (Except.ok path, { w with tempCtr := w.tempCtr + 1, temps := w.temps ++ [path] })

/-- External `wavio.readwav(p)`: fails if the file is absent or the env says the bytes
do not parse; otherwise returns (samplerate, samplewidth).  Sample data is
abstracted away. -/
def readwavM (env : Env) (p : String) : M (Nat × Nat) := fun w =>
  if p ∈ w.files then
    match env.readwav p with
    | some rw => (Except.ok rw, w)
    | none => (Except.error (Err.ioError ("cannot parse wav: " ++ p)), w)
  else (Except.error (Err.ioError ("file not found: " ++ p)), w)

/-- Source `normalize_wav` per sample: `wavedata / float(2 ** (8 * samplewidth) / 2)`
(the divisor is Python 2 integer division, mirrored by Nat division). -/
def normalize_wav (wavedata : ℚ) (samplewidth : ℕ) : ℚ :=
  let divisor : ℕ := 2 ^ (8 * samplewidth) / 2
  wavedata / (divisor : ℚ)

/-- The ffmpeg resampling command built by `resample`:
`ffmpeg -v 1 -y -i <filename> -ar <rate> <tempfile>`. -/
def resampleCmd (filename : String) (to_samplerate : Nat) (t : String) : List String :=
  ["ffmpeg", "-v", "1", "-y", "-i", filename, "-ar", toString to_samplerate, t]

/-- Source `resample(filename, to_samplerate, normalize, verbose)`: allocate a temp
name, run ffmpeg; on nonzero exit raise `DecoderException` (note: the temp
file is NOT removed on this path — only the `except OSError` handler removes
it); on an `OSError` launch failure remove the temp if present, probe the
bare binary when errno is 2, and raise a `DecoderException` either way.  The
`normalize`/`verbose` parameters only affect printing, which is not
modelled. -/
def resample (env : Env) (filename : String) (to_samplerate : Nat)
    (_normalize _verbose : Bool) : M String := fun w =>
  match get_temp_filename env ".wav" w with
  | (Except.ok t, w1) =>
    let cmd := resampleCmd filename to_samplerate t
    (match callProc env cmd w1 with
     | (Except.ok code, w2) =>
       if code ≠ 0 then
         (Except.error (Err.decoderException "Problem appeared during resampling." cmd), w2)
       else (Except.ok t, w2)
     | (Except.error e, w2) =>
       match removeIfExists t w2 with
       | (_, w3) =>
         match e with
         | Err.osError (some 2) _ =>
           (match callProc env ["ffmpeg"] w3 with
            | (Except.ok _, w4) =>
              (Except.error (Err.decoderException "Unknown problem appeared during resampling." cmd), w4)
            | (Except.error e2, w4) =>
              match e2 with
              | Err.osError _ _ =>
                (Except.error (Err.decoderException "Decoder not found. Please install ffmpeg" cmd), w4)
              | other => (Except.error other, w4))
         | Err.osError _ _ =>
           (Except.error (Err.decoderException "Unknown problem appeared during resampling." cmd), w3)
         | other => (Except.error other, w3))
  | (Except.error e, w1) => (Except.error e, w1)

/-- Source `wav_read(filename, normalize, verbose, auto_resample)`.  Returns the
(samplerate, samplewidth) pair of the parsed result; the data array and the
normalization of its values are abstracted away (see `normalize_wav` for the
per-sample arithmetic).  When auto-resampling triggers, the resampled temp
file is re-parsed and — as in the source, where the `os.remove(filename2)`
line is commented out — never deleted. -/
def wav_read (env : Env) (filename : String)
    (_normalize _verbose auto_resample : Bool) : M (Nat × Nat) := fun w =>
  if filename ∉ w.files then
    (Except.error (Err.nameError ("File does not exist:" ++ filename)), w)
  else
    match readwavM env filename w with
    | (Except.ok (samplerate, samplewidth), w1) =>
      if auto_resample ∧ samplerate ≠ 11025 ∧ samplerate ≠ 22050
          ∧ samplerate ≠ 44100 then
        let to_samplerate := if samplerate < 22050 then 22050 else 44100
        match resample env filename to_samplerate true _verbose w1 with
        | (Except.ok filename2, w2) => readwavM env filename2 w2
        | (Except.error e, w2) => (Except.error e, w2)
      else (Except.ok (samplerate, samplewidth), w1)
    | (Except.error e, w1) => (Except.error e, w1)

/-- Command `cmd1` of `decode`: `ffmpeg -v 1 -y -i <in> <out>`. -/
def decodeCmd1 (in_filename out : String) : List String :=
  ["ffmpeg", "-v", "1", "-y", "-i", in_filename, out]

/-- Command `cmd2` of `decode`: `mpg123 -q -w <out> <in>`. -/
def decodeCmd2 (in_filename out : String) : List String :=
  ["mpg123", "-q", "-w", out, in_filename]

/-- Command `cmd3` of `decode`: `lame --quiet --decode <in> <out>`. -/
def decodeCmd3 (in_filename out : String) : List String :=
  ["lame", "--quiet", "--decode", in_filename, out]

/-- The shape of a `cmd_types` entry: the source uses a tuple for `cmd1` but
plain strings for `cmd2`/`cmd3`, and Python `in` means membership on a tuple
but substring containment on a string. -/
inductive TypeSpec
  | tup (l : List String)
  | str (s : String)

def cmd1_types : TypeSpec := TypeSpec.tup [".mp3", ".aif", ".aiff", ".m4a"]

def cmd2_types : TypeSpec := TypeSpec.str ".mp3"

def cmd3_types : TypeSpec := TypeSpec.str ".mp3"

/-- The Python test `ext in types`. -/
def extMatches (ext : String) : TypeSpec → Bool
  | TypeSpec.tup l => l.contains ext
  | TypeSpec.str s => strIn ext s

/-- The loop body of `decode` over the remaining `(cmd, types)` candidates.
Returns the `success` flag.  A matching candidate is invoked; nonzero exit
raises `DecoderException` immediately; an `OSError` with errno 2 (binary not
found) is swallowed and iteration continues; any other `OSError` raises
`DecoderException`; on success the loop breaks. -/
def decodeLoop (env : Env) (ext : String) :
    List (List String × TypeSpec) → M Bool
  | [] => fun w => (Except.ok false, w)
  | (cmd, types) :: rest => fun w =>
    if extMatches ext types then
      match callProc env cmd w with
      | (Except.ok code, w1) =>
        if code ≠ 0 then
          (Except.error (Err.decoderException "Problem appeared during decoding." cmd), w1)
        else (Except.ok true, w1)
      | (Except.error e, w1) =>
        match e with
        | Err.osError (some 2) _ => decodeLoop env ext rest w1
        | Err.osError _ _ =>
          (Except.error (Err.decoderException "Problem appeared during decoding." cmd), w1)
        | other => (Except.error other, w1)
    else decodeLoop env ext rest w

/-- The message of the `OSError` raised when no decoder succeeded. -/
def noDecoderMsg (ext commands : String) : String :=
  "No appropriate decoder found for" ++ ext ++ "file." ++
  "Check if any of these programs is on your system path: " ++ commands ++ ". " ++
  "Otherwise install one of these and/or add them to the path using os.environ[\x27PATH\x27] += os.pathsep + path."

/-- Source `decode(in_filename, out_filename, verbose)`.  Lowercases the extension,
determines the output path (input basename + `.wav` when not supplied),
iterates the candidate decoders, and — since the Python function body has no
`return` statement — yields `None` on success. -/
def decode (env : Env) (in_filename : String) (out_filename : Option String)
    (_verbose : Bool) : M (Option String) := fun w =>
  let pr := splitext in_filename
  let ext := strLower pr.2
  let out := out_filename.getD (pr.1 ++ ".wav")
  let cmd1 := decodeCmd1 in_filename out
  let cmd2 := decodeCmd2 in_filename out
  let cmd3 := decodeCmd3 in_filename out
  match decodeLoop env ext [(cmd1, cmd1_types), (cmd2, cmd2_types), (cmd3, cmd3_types)] w with
  | (Except.ok success, w1) =>
    if success then (Except.ok none, w1)
    else
      let commands := String.intercalate ", " ([cmd1, cmd2, cmd3].map (fun c => c.headD ""))
      (Except.error (Err.osError none (noDecoderMsg ext commands)), w1)
  | (Except.error e, w1) => (Except.error e, w1)

/-- Source `mp3_decode` just forwards to `decode`. -/
def mp3_decode (env : Env) (in_filename : String) (out_filename : Option String)
    (verbose : Bool) : M (Option String) :=
  decode env in_filename out_filename verbose

/-- Source `audiofile_read(filename, normalize, verbose)`: existence check; `.wav`
(after lowercasing) goes straight to `wav_read`; anything else is decoded to
a fresh temp file which is read and then removed in a `finally` block. -/
def audiofile_read (env : Env) (filename : String)
    (normalize verbose : Bool) : M (Nat × Nat) := fun w =>
  if filename ∉ w.files then
    (Except.error (Err.nameError ("File does not exist:" ++ filename)), w)
  else
    let ext := strLower (splitext filename).2
    if ext = ".wav" then wav_read env filename normalize verbose true w
    else
      match get_temp_filename env ".wav" w with
      | (Except.ok t, w1) =>
        let body :=
          match mp3_decode env filename (some t) verbose w1 with
          | (Except.ok _, w2) => wav_read env t normalize verbose true w2
          | (Except.error e, w2) => (Except.error e, w2)
        (match body with
         | (Except.ok res, w3) =>
           match removeIfExists t w3 with
           | (_, w4) => (Except.ok res, w4)
         | (Except.error e, w3) =>
           match removeIfExists t w3 with
           | (_, w4) => (Except.error e, w4))
      | (Except.error e, w1) => (Except.error e, w1)

/-- Source `convert_to_wav(filename, verbose)`: `.wav` inputs are left alone (with a
log line); otherwise decode next to the input; a `DecoderException` is
downgraded to a log line, removing any partial output and returning the
original name; on success the original file is removed and the new `.wav`
path returned.  Any exception other than `DecoderException` propagates. -/
def convert_to_wav (env : Env) (filename : String) (verbose : Bool) : M String := fun w =>
  if filename ∉ w.files then
    (Except.error (Err.nameError ("File does not exist:" ++ filename)), w)
  else
    let pr := splitext filename
    let ext := strLower pr.2
    if ext = ".wav" then
      (Except.ok filename, { w with logs := w.logs ++ ["It is a wav file. No conversion needed"] })
    else
      let out_filename := pr.1 ++ ".wav"
      match mp3_decode env filename (some out_filename) verbose w with
      | (Except.ok _, w1) =>
        (match removeIfExists filename w1 with
         | (_, w2) => (Except.ok out_filename, w2))
      | (Except.error (Err.decoderException _ _), w1) =>
        (match removeIfExists out_filename w1 with
         | (_, w2) =>
           (Except.ok filename, { w2 with logs := w2.logs ++ ["ERROR DECODING FILE: " ++ filename] }))
      | (Except.error e, w1) => (Except.error e, w1)

/-- The temp filename that the next `get_temp_filename env ".wav"` call in
world `w` will hand out. -/
def tmpName (env : Env) (w : World) : String :=
  env.tmpdir ++ "/" ++ env.uuidName w.tempCtr ++ ".wav"

/-- A world holding a single 48 kHz WAV file. -/
def w0 : World := { files := ["a.wav"], tempCtr := 0, calls := [], temps := [], logs := [] }

/-- Environment: every subprocess succeeds and produces `/tmp/u0.wav`; the
input `a.wav` parses at 48000 Hz (not one of the resample-exempt rates) and
the produced temp file parses at 44100 Hz. -/
def env2 : Env := {
  call := fun _ _ => CallBehavior.runs 0 ["/tmp/u0.wav"],
  readwav := fun p =>
    if p = "a.wav" then some (48000, 2)
    else if p = "/tmp/u0.wav" then some (44100, 2) else none,
  tmpdir := "/tmp",
  uuidName := fun n => "u" ++ toString n }

/-- A world holding a single MP3 file. -/
def w3 : World := { files := ["a.mp3"], tempCtr := 0, calls := [], temps := [], logs := [] }

/-- Environment where every decoder invocation succeeds (exit code 0) and
creates `a.wav`. -/
def env3 : Env := {
  call := fun _ _ => CallBehavior.runs 0 ["a.wav"],
  readwav := fun _ => some (44100, 2),
  tmpdir := "/tmp",
  uuidName := fun n => "u" ++ toString n }

/-- Environment where no external binary can be launched (`OSError` errno 2,
i.e. not installed). -/
def env4 : Env := {
  call := fun _ _ => CallBehavior.launchFail 2,
  readwav := fun _ => none,
  tmpdir := "/tmp",
  uuidName := fun n => "u" ++ toString n }

/-- A world holding a single AIFF file. -/
def w6 : World := { files := ["a.aif"], tempCtr := 0, calls := [], temps := [], logs := [] }

/-- A world holding a file with the unsupported extension `.m`. -/
def w10 : World := { files := ["track.m"], tempCtr := 0, calls := [], temps := [], logs := [] }

/-- Environment where every decoder runs but exits with code 1, leaving a
partial `a.wav` behind. -/
def env4w : Env := {
  call := fun _ _ => CallBehavior.runs 1 ["a.wav"],
  readwav := fun _ => none,
  tmpdir := "/tmp",
  uuidName := fun n => "u" ++ toString n }

/-- A world holding a single MP3 file named `b.mp3`. -/
def wB : World := { files := ["b.mp3"], tempCtr := 0, calls := [], temps := [], logs := [] }

/-- Environment where decoding succeeds, producing `/tmp/u0.wav`, which
parses at 44100 Hz. -/
def envB : Env := {
  call := fun _ _ => CallBehavior.runs 0 ["/tmp/u0.wav"],
  readwav := fun p => if p = "/tmp/u0.wav" then some (44100, 2) else none,
  tmpdir := "/tmp",
  uuidName := fun n => "u" ++ toString n }

/-- A world holding a 48 kHz WAV file named `c.wav`. -/
def w8 : World := { files := ["c.wav"], tempCtr := 0, calls := [], temps := [], logs := [] }

/-- Environment for the resampling flow on `c.wav` (48 kHz input, resampled
temp parses at 44100 Hz). -/
def env8 : Env := {
  call := fun _ _ => CallBehavior.runs 0 ["/tmp/u0.wav"],
  readwav := fun p =>
    if p = "c.wav" then some (48000, 2)
    else if p = "/tmp/u0.wav" then some (44100, 2) else none,
  tmpdir := "/tmp",
  uuidName := fun n => "u" ++ toString n }

/-- A world holding files with upper-case extensions. -/
def w9 : World := { files := ["A.WAV", "b.MP3"], tempCtr := 0, calls := [], temps := [], logs := [] }

/-! ## Theorems -/

/-! ### Projection lemmas for the primitives -/

theorem callProc_calls (env : Env) (cmd : List String) (w : World) :
    (callProc env cmd w).2.calls = w.calls ++ [cmd] := by
  rcases h : env.call w.calls.length cmd with ⟨code, creates⟩ | errno <;>
    simp [callProc, h]

theorem callProc_temps (env : Env) (cmd : List String) (w : World) :
    (callProc env cmd w).2.temps = w.temps := by
  rcases h : env.call w.calls.length cmd with ⟨code, creates⟩ | errno <;>
    simp [callProc, h]

theorem callProc_logs (env : Env) (cmd : List String) (w : World) :
    (callProc env cmd w).2.logs = w.logs := by
  rcases h : env.call w.calls.length cmd with ⟨code, creates⟩ | errno <;>
    simp [callProc, h]

theorem mem_foldl_insert (creates : List String) :
    ∀ (fs : List String) (p : String), p ∈ fs →
      p ∈ creates.foldl (fun fs q => if q ∈ fs then fs else fs ++ [q]) fs := by
  induction creates with
  | nil => intro fs p hp; simpa using hp
  | cons a t ih =>
    intro fs p hp
    simp only [List.foldl_cons]
    apply ih
    by_cases h : a ∈ fs
    · simpa [h] using hp
    · simp only [h, if_false, List.mem_append]
      exact Or.inl hp

theorem callProc_files_mono (env : Env) (cmd : List String) (w : World)
    (p : String) (hp : p ∈ w.files) : p ∈ (callProc env cmd w).2.files := by
  rcases h : env.call w.calls.length cmd with ⟨code, creates⟩ | errno <;>
    simp only [callProc, h]
  · exact mem_foldl_insert creates w.files p hp
  · exact hp

theorem removeIfExists_world (p : String) (w : World) :
    (removeIfExists p w).2.calls = w.calls ∧
    (removeIfExists p w).2.temps = w.temps ∧
    (removeIfExists p w).2.logs = w.logs ∧
    (removeIfExists p w).2.tempCtr = w.tempCtr := by
  by_cases h : p ∈ w.files <;> simp [removeIfExists, h]

theorem not_mem_removeIfExists (p : String) (w : World) :
    p ∉ (removeIfExists p w).2.files := by
  by_cases h : p ∈ w.files <;> simp only [removeIfExists, h, if_true, if_false]
  · intro hm
    rcases List.mem_filter.mp hm with ⟨-, hne⟩
    simp at hne
  · exact not_false

theorem mem_removeIfExists_of_ne (p q : String) (w : World)
    (hq : q ∈ w.files) (hne : q ≠ p) : q ∈ (removeIfExists p w).2.files := by
  by_cases h : p ∈ w.files <;> simp only [removeIfExists, h, if_true, if_false]
  · exact List.mem_filter.mpr ⟨hq, by simpa using hne⟩
  · exact hq

theorem readwavM_world (env : Env) (p : String) (w : World) :
    (readwavM env p w).2 = w := by
  simp only [readwavM]
  split
  · split <;> rfl
  · rfl

/-- C1, counterexample: on a successful `audiofile_read` of an existing
48 kHz `a.wav`, the temp file `/tmp/u0.wav` created during the call by the
internal resampling step is still on disk when the call completes (the
`os.remove(filename2)` in `wav_read` is commented out in the source). -/
theorem c1_counterexample :
    (audiofile_read env2 "a.wav" true false w0).1 = Except.ok (44100, 2) ∧
    "/tmp/u0.wav" ∈ (audiofile_read env2 "a.wav" true false w0).2.temps ∧
    "/tmp/u0.wav" ∉ w0.temps ∧
    "/tmp/u0.wav" ∈ (audiofile_read env2 "a.wav" true false w0).2.files := by
  refine ⟨rfl, ?_, ?_, ?_⟩ <;> decide

/-- C2, counterexample: for the existing input `a.wav` (extension `.wav`)
whose sample rate is 48000, `audiofile_read` does invoke an external
process, namely the ffmpeg resampler. -/
theorem c2_counterexample :
    "a.wav" ∈ w0.files ∧
    strLower (splitext "a.wav").2 = ".wav" ∧
    (audiofile_read env2 "a.wav" true false w0).2.calls =
      [resampleCmd "a.wav" 44100 "/tmp/u0.wav"] ∧
    (audiofile_read env2 "a.wav" true false w0).2.calls ≠ [] := by
  refine ⟨by decide, rfl, rfl, ?_⟩
  decide

/-- C3, counterexample: `decode` succeeds on `a.mp3` (ffmpeg exits 0) yet
returns `None`, not the output path `a.wav`: the Python function body has no
`return` statement. -/
theorem c3_counterexample :
    (decode env3 "a.mp3" none true w3).1 = Except.ok none ∧
    (Except.ok none : Except Err (Option String)) ≠ Except.ok (some "a.wav") := by
  refine ⟨rfl, fun h => Option.noConfusion (Except.ok.inj h)⟩

/-- C4, counterexample: for the existing non-wav input `a.mp3`, when decoding
fails because no decoder binary can be launched, `decode` raises a plain
`OSError` (NoDecoderFound), which `convert_to_wav` does **not** catch (it
only catches `DecoderException`): the failure propagates instead of being
downgraded to a logged, non-fatal outcome. -/
theorem c4_counterexample :
    "a.mp3" ∈ w3.files ∧
    strLower (splitext "a.mp3").2 ≠ ".wav" ∧
    (convert_to_wav env4 "a.mp3" true w3).1 =
      Except.error (Err.osError none (noDecoderMsg ".mp3" "ffmpeg, mpg123, lame")) ∧
    (convert_to_wav env4 "a.mp3" true w3).1 ≠ Except.ok "a.mp3" := by
  refine ⟨by decide, by decide, rfl, ?_⟩
  intro h
  rw [show (convert_to_wav env4 "a.mp3" true w3).1 =
      Except.error (Err.osError none (noDecoderMsg ".mp3" "ffmpeg, mpg123, lame")) from rfl] at h
  exact Except.noConfusion h

/-- C6, counterexample: for the existing input `a.aif` with no decoder
installed, the only decoder attempted is ffmpeg (mpg123 and lame do not
support `.aif`), yet the NoDecoderFound message enumerates `mpg123` (and
`lame`) as well — it lists all configured decoders, not the attempted
ones. -/
theorem c6_counterexample :
    (decode env4 "a.aif" none true w6).1 =
      Except.error (Err.osError none (noDecoderMsg ".aif" "ffmpeg, mpg123, lame")) ∧
    (decode env4 "a.aif" none true w6).2.calls = [decodeCmd1 "a.aif" "a.wav"] ∧
    strIn "mpg123" (noDecoderMsg ".aif" "ffmpeg, mpg123, lame") = true ∧
    (decodeCmd1 "a.aif" "a.wav").headD "" = "ffmpeg" ∧
    "ffmpeg" ≠ "mpg123" := by
  refine ⟨rfl, rfl, by decide, rfl, by decide⟩

/-- C10, evaluation at the failing input: `track.m` exists and its extension
`.m` is none of `.wav`, `.mp3`, `.aif`, `.aiff`, `.m4a`, yet
`audiofile_read` attempts the external processes mpg123 and lame, because
the Python membership test `ext in types` performs a **substring** test on
the string-valued `cmd2_types = '.mp3'` / `cmd3_types = '.mp3'` (`'.m' in
'.mp3'` is `True`), contrary to the code's own "file types supported"
intent. -/
theorem c10_bug_eval :
    "track.m" ∈ w10.files ∧
    strLower (splitext "track.m").2 = ".m" ∧
    ".m" ∉ [".wav", ".mp3", ".aif", ".aiff", ".m4a"] ∧
    (audiofile_read env4 "track.m" true false w10).2.calls =
      [decodeCmd2 "track.m" "/tmp/u0.wav", decodeCmd3 "track.m" "/tmp/u0.wav"] ∧
    (audiofile_read env4 "track.m" true false w10).2.calls ≠ [] := by
  refine ⟨by decide, rfl, by decide, rfl, by decide⟩

/-- The core inequality facts behind `normalize_wav`: dividing an integer
`v ∈ [-C, C-1]` by `C > 0` lands in `[-1, 1]` and hits the boundary exactly
at `v = -C`. -/
theorem div_bound (C : ℚ) (hC : 0 < C) (v : ℤ) (h1 : -C ≤ (v : ℚ))
    (h2 : (v : ℚ) ≤ C - 1) :
    -1 ≤ (v : ℚ) / C ∧ (v : ℚ) / C ≤ 1 ∧
    (((v : ℚ) / C = 1 ∨ (v : ℚ) / C = -1) ↔ (v : ℚ) = -C) := by
  have hC' : C ≠ 0 := ne_of_gt hC
  refine ⟨?_, ?_, ?_, ?_⟩
  · rw [le_div_iff₀ hC]; linarith
  · rw [div_le_one hC]; linarith
  · rintro (h | h)
    · rw [div_eq_iff hC'] at h
      exfalso; rw [one_mul] at h; linarith
    · rw [div_eq_iff hC'] at h
      rw [h]; ring
  · intro h
    right
    rw [h, neg_div, div_self hC']

/-- C7: for sample widths 1–4, `normalize_wav` divides each sample by
`2^(8·w−1)`, and every representable `w`-byte signed value lands in
`[-1, 1]`, the boundary being attained only at the representable minimum
`-2^(8·w−1)`. -/
theorem normalize_wav_bounds (w : ℕ) (hw : w = 1 ∨ w = 2 ∨ w = 3 ∨ w = 4)
    (v : ℤ) (hlo : -(2 ^ (8 * w - 1)) ≤ v) (hhi : v ≤ 2 ^ (8 * w - 1) - 1) :
    normalize_wav (v : ℚ) w = (v : ℚ) / 2 ^ (8 * w - 1) ∧
    -1 ≤ normalize_wav (v : ℚ) w ∧ normalize_wav (v : ℚ) w ≤ 1 ∧
    ((normalize_wav (v : ℚ) w = 1 ∨ normalize_wav (v : ℚ) w = -1) ↔
      v = -(2 ^ (8 * w - 1))) := by
  rcases hw with rfl | rfl | rfl | rfl <;>
  · norm_num [normalize_wav] at hlo hhi ⊢
    first
    | (obtain ⟨g1, g2, g3⟩ :=
        div_bound 128 (by norm_num) v (by exact_mod_cast hlo) (by exact_mod_cast hhi)
       refine ⟨g1, g2, g3.trans ?_⟩
       constructor
       · intro h; exact_mod_cast h
       · intro h; exact_mod_cast h)
    | (obtain ⟨g1, g2, g3⟩ :=
        div_bound 32768 (by norm_num) v (by exact_mod_cast hlo) (by exact_mod_cast hhi)
       refine ⟨g1, g2, g3.trans ?_⟩
       constructor
       · intro h; exact_mod_cast h
       · intro h; exact_mod_cast h)
    | (obtain ⟨g1, g2, g3⟩ :=
        div_bound 8388608 (by norm_num) v (by exact_mod_cast hlo) (by exact_mod_cast hhi)
       refine ⟨g1, g2, g3.trans ?_⟩
       constructor
       · intro h; exact_mod_cast h
       · intro h; exact_mod_cast h)
    | (obtain ⟨g1, g2, g3⟩ :=
        div_bound 2147483648 (by norm_num) v (by exact_mod_cast hlo) (by exact_mod_cast hhi)
       refine ⟨g1, g2, g3.trans ?_⟩
       constructor
       · intro h; exact_mod_cast h
       · intro h; exact_mod_cast h)

/-- Witness for C7 at width 2 and sample value 1000. -/
theorem normalize_wav_bounds_witness :
    normalize_wav ((1000 : ℤ) : ℚ) 2 = ((1000 : ℤ) : ℚ) / 2 ^ (8 * 2 - 1) ∧
    -1 ≤ normalize_wav ((1000 : ℤ) : ℚ) 2 ∧ normalize_wav ((1000 : ℤ) : ℚ) 2 ≤ 1 ∧
    ((normalize_wav ((1000 : ℤ) : ℚ) 2 = 1 ∨ normalize_wav ((1000 : ℤ) : ℚ) 2 = -1) ↔
      (1000 : ℤ) = -(2 ^ (8 * 2 - 1))) :=
  normalize_wav_bounds 2 (by norm_num) 1000 (by norm_num) (by norm_num)

/-- C5: in `decode`'s candidate loop, a matching candidate that runs and
exits nonzero raises `DecoderException` at once (no further candidate is
tried, and no further subprocess is invoked); iteration continues past a
matching candidate exactly when launching it fails with errno 2 (binary not
found); a launch failure with any other errno also raises
`DecoderException` immediately. -/
theorem decode_iteration (env : Env) (ext : String) (cmd : List String)
    (types : TypeSpec) (rest : List (List String × TypeSpec)) (w : World)
    (hm : extMatches ext types = true) :
    (∀ code creates, env.call w.calls.length cmd = CallBehavior.runs code creates →
        code ≠ 0 →
        (decodeLoop env ext ((cmd, types) :: rest) w).1 =
          Except.error (Err.decoderException "Problem appeared during decoding." cmd) ∧
        (decodeLoop env ext ((cmd, types) :: rest) w).2.calls = w.calls ++ [cmd]) ∧
    (env.call w.calls.length cmd = CallBehavior.launchFail 2 →
        decodeLoop env ext ((cmd, types) :: rest) w =
          decodeLoop env ext rest { w with calls := w.calls ++ [cmd] }) ∧
    (∀ e, e ≠ 2 → env.call w.calls.length cmd = CallBehavior.launchFail e →
        (decodeLoop env ext ((cmd, types) :: rest) w).1 =
          Except.error (Err.decoderException "Problem appeared during decoding." cmd) ∧
        (decodeLoop env ext ((cmd, types) :: rest) w).2.calls = w.calls ++ [cmd]) := by
  refine ⟨?_, ?_, ?_⟩
  · intro code creates h hne
    simp only [decodeLoop, hm, if_true, callProc, h]
    simp [hne]
  · intro h
    simp only [decodeLoop, hm, if_true, callProc, h]
  · intro e he h
    simp only [decodeLoop, hm, if_true, callProc, h]
    refine ⟨?_, ?_⟩ <;>
    · split
      all_goals simp_all

/-- Witness for C5: mpg123 matches `.mp3`, runs, and exits with code 1. -/
theorem decode_iteration_witness :
    (decodeLoop env4w ".mp3" [(decodeCmd2 "a.mp3" "a.wav", cmd2_types)] w3).1 =
      Except.error (Err.decoderException "Problem appeared during decoding."
        (decodeCmd2 "a.mp3" "a.wav")) ∧
    (decodeLoop env4w ".mp3" [(decodeCmd2 "a.mp3" "a.wav", cmd2_types)] w3).2.calls =
      w3.calls ++ [decodeCmd2 "a.mp3" "a.wav"] :=
  (decode_iteration env4w ".mp3" (decodeCmd2 "a.mp3" "a.wav") cmd2_types [] w3
    (by decide)).1 1 ["a.wav"] rfl (by decide)

/-- Helper: `decodeLoop` never raises a plain `OSError` without errno; the
no-decoder `OSError` can only come from the final raise in `decode`. -/
theorem decodeLoop_not_osError_none (env : Env) (ext : String) :
    ∀ (cands : List (List String × TypeSpec)) (w : World) (m : String),
      (decodeLoop env ext cands w).1 ≠ Except.error (Err.osError none m) := by
  intro cands
  induction cands with
  | nil => intro w m h; simp [decodeLoop] at h
  | cons p rest ih =>
    intro w m h
    obtain ⟨cmd, types⟩ := p
    simp only [decodeLoop, callProc] at h
    split at h
    · split at h
      · split at h <;> simp_all
      · split at h
        · exact ih _ _ h
        · simp_all
        · simp_all
    · exact ih _ _ h

/-- C6 (amended): whenever `decode` fails with the NoDecoderFound `OSError`,
the message enumerates the executable names of **all three configured**
decoders — `ffmpeg, mpg123, lame` — regardless of which candidates matched
the input's extension and were actually attempted. -/
theorem noDecoder_message_lists_all (env : Env) (f : String) (o : Option String)
    (v : Bool) (w : World) (m : String)
    (h : (decode env f o v w).1 = Except.error (Err.osError none m)) :
    m = noDecoderMsg (strLower (splitext f).2) "ffmpeg, mpg123, lame" := by
  simp only [decode] at h
  split at h
  · next success w1 heq =>
      split at h
      · simp at h
      · simp only [Except.error.injEq, Err.osError.injEq, true_and] at h
        rw [← h]
        rfl
  · next e w1 heq =>
      exfalso
      simp only [Prod.fst] at h
      have hh := decodeLoop_not_osError_none env (strLower (splitext f).2)
        [(decodeCmd1 f (o.getD ((splitext f).1 ++ ".wav")), cmd1_types),
          (decodeCmd2 f (o.getD ((splitext f).1 ++ ".wav")), cmd2_types),
          (decodeCmd3 f (o.getD ((splitext f).1 ++ ".wav")), cmd3_types)] w m
      rw [heq] at hh
      exact hh (by simpa using h)

/-- Witness for C6 (amended) on the `.aif` input with no decoder
installed. -/
theorem noDecoder_message_lists_all_witness :
    noDecoderMsg ".aif" "ffmpeg, mpg123, lame" =
      noDecoderMsg (strLower (splitext "a.aif").2) "ffmpeg, mpg123, lame" :=
  noDecoder_message_lists_all env4 "a.aif" none true w6
    (noDecoderMsg ".aif" "ffmpeg, mpg123, lame") rfl

/-- Helper: every subprocess attempt recorded during `resample f r` is
either pre-existing, the bare `ffmpeg` probe, or the ffmpeg resampling
command itself. -/
theorem resample_calls (env : Env) (f : String) (r : Nat) (n v : Bool) (w : World) :
    ∀ c ∈ (resample env f r n v w).2.calls,
      c ∈ w.calls ∨ c = ["ffmpeg"] ∨ c = resampleCmd f r (tmpName env w) := by
  intro c hc
  simp only [resample, get_temp_filename] at hc
  split at hc
  · rename_i code w2 heq
    have hcalls : w2.calls = w.calls ++ [resampleCmd f r (tmpName env w)] := by
      have h := callProc_calls env
        (resampleCmd f r (env.tmpdir ++ "/" ++ env.uuidName w.tempCtr ++ ".wav"))
        { w with tempCtr := w.tempCtr + 1,
                 temps := w.temps ++ [env.tmpdir ++ "/" ++ env.uuidName w.tempCtr ++ ".wav"] }
      rw [heq] at h
      simpa [tmpName] using h
    split at hc <;>
    · simp only at hc
      rw [hcalls] at hc
      rcases List.mem_append.mp hc with h | h
      · exact Or.inl h
      · exact Or.inr (Or.inr (List.mem_singleton.mp h))
  · rename_i e w2 heq
    have hcalls : w2.calls = w.calls ++ [resampleCmd f r (tmpName env w)] := by
      have h := callProc_calls env
        (resampleCmd f r (env.tmpdir ++ "/" ++ env.uuidName w.tempCtr ++ ".wav"))
        { w with tempCtr := w.tempCtr + 1,
                 temps := w.temps ++ [env.tmpdir ++ "/" ++ env.uuidName w.tempCtr ++ ".wav"] }
      rw [heq] at h
      simpa [tmpName] using h
    rcases h2 : removeIfExists (env.tmpdir ++ "/" ++ env.uuidName w.tempCtr ++ ".wav") w2
      with ⟨u, w3⟩
    rw [h2] at hc
    have hw3 : w3.calls = w2.calls := by
      have h := (removeIfExists_world
        (env.tmpdir ++ "/" ++ env.uuidName w.tempCtr ++ ".wav") w2).1
      rw [h2] at h
      exact h
    split at hc
    · -- errno 2: the bare-binary probe runs
      rcases h3 : callProc env ["ffmpeg"] w3 with ⟨r3, w4⟩
      rw [h3] at hc
      have hw4 : w4.calls = w3.calls ++ [["ffmpeg"]] := by
        have h := callProc_calls env ["ffmpeg"] w3
        rw [h3] at h
        exact h
      have hc4 : c ∈ w4.calls := by
        rcases r3 with e2 | a
        · rcases e2 with m | ⟨errno, msg⟩ | ⟨m, cm⟩ | m <;> simpa using hc
        · simpa using hc
      rw [hw4, hw3, hcalls] at hc4
      rcases List.mem_append.mp hc4 with h | h
      · rcases List.mem_append.mp h with h | h
        · exact Or.inl h
        · exact Or.inr (Or.inr (List.mem_singleton.mp h))
      · exact Or.inr (Or.inl (List.mem_singleton.mp h))
    · simp only at hc
      rw [hw3, hcalls] at hc
      rcases List.mem_append.mp hc with h | h
      · exact Or.inl h
      · exact Or.inr (Or.inr (List.mem_singleton.mp h))
    · simp only at hc
      rw [hw3, hcalls] at hc
      rcases List.mem_append.mp hc with h | h
      · exact Or.inl h
      · exact Or.inr (Or.inr (List.mem_singleton.mp h))


/-- Helper: every subprocess attempt recorded during `wav_read f` is either
pre-existing, the bare `ffmpeg` probe, or an ffmpeg resampling command for
`f` with target rate 22050 or 44100. -/
theorem wav_read_calls (env : Env) (f : String) (n v ar : Bool) (w : World) :
    ∀ c ∈ (wav_read env f n v ar w).2.calls,
      c ∈ w.calls ∨ c = ["ffmpeg"] ∨
        ∃ r2, (r2 = 22050 ∨ r2 = 44100) ∧ c = resampleCmd f r2 (tmpName env w) := by
  intro c hc
  simp only [wav_read] at hc
  split at hc
  · exact Or.inl (by simpa using hc)
  · split at hc
    · rename_i sr sw w1 heq
      have hw1 : w1 = w := by
        have h := readwavM_world env f w
        rw [heq] at h
        exact h
      subst hw1
      split at hc
      · split at hc
        · rename_i f2 w2 heq2
          have hrd : (readwavM env f2 w2).2 = w2 := readwavM_world env f2 w2
          rw [hrd] at hc
          have hres := resample_calls env f (if sr < 22050 then 22050 else 44100)
            true v w1 c (by rw [heq2]; exact hc)
          rcases hres with h | h | h
          · exact Or.inl h
          · exact Or.inr (Or.inl h)
          · refine Or.inr (Or.inr ⟨(if sr < 22050 then 22050 else 44100), ?_, h⟩)
            by_cases hlt : sr < 22050 <;> simp [hlt]
        · rename_i e w2 heq2
          have hres := resample_calls env f (if sr < 22050 then 22050 else 44100)
            true v w1 c (by rw [heq2]; simpa using hc)
          rcases hres with h | h | h
          · exact Or.inl h
          · exact Or.inr (Or.inl h)
          · refine Or.inr (Or.inr ⟨(if sr < 22050 then 22050 else 44100), ?_, h⟩)
            by_cases hlt : sr < 22050 <;> simp [hlt]
      · exact Or.inl (by simpa using hc)
    · rename_i e w1 heq
      have hw1 : w1 = w := by
        have h := readwavM_world env f w
        rw [heq] at h
        exact h
      subst hw1
      exact Or.inl (by simpa using hc)

/-- C2 (amended): for an input whose lowercased extension is `.wav`,
`audiofile_read` never invokes any external decoder: every subprocess it
attempts is either the ffmpeg resampler (target rate 22050 or 44100) or the
bare `ffmpeg` binary probe of the resampler error path.  (The original
claim — that no external process at all is invoked — fails: see
`c2_counterexample`.) -/
theorem audiofile_read_wav_only_resampler (env : Env) (f : String) (n v : Bool)
    (w : World) (hext : strLower (splitext f).2 = ".wav") :
    ∀ c ∈ (audiofile_read env f n v w).2.calls,
      c ∈ w.calls ∨ c = ["ffmpeg"] ∨
        ∃ r t, (r = 22050 ∨ r = 44100) ∧ c = resampleCmd f r t := by
  intro c hc
  simp only [audiofile_read] at hc
  split at hc
  · exact Or.inl (by simpa using hc)
  · rcases wav_read_calls env f n v true w c hc with h | h | ⟨r2, hr2, h⟩
    · exact Or.inl h
    · exact Or.inr (Or.inl h)
    · exact Or.inr (Or.inr ⟨r2, tmpName env w, hr2, h⟩)

/-- Witness for C2 (amended): the resampling command invoked on the 48 kHz
`a.wav` is indeed classified as a resampler command. -/
theorem audiofile_read_wav_only_resampler_witness :
    (resampleCmd "a.wav" 44100 "/tmp/u0.wav") ∈ w0.calls ∨
      (resampleCmd "a.wav" 44100 "/tmp/u0.wav") = ["ffmpeg"] ∨
      ∃ r t, (r = 22050 ∨ r = 44100) ∧
        (resampleCmd "a.wav" 44100 "/tmp/u0.wav") = resampleCmd "a.wav" r t :=
  audiofile_read_wav_only_resampler env2 "a.wav" true false w0 rfl
    (resampleCmd "a.wav" 44100 "/tmp/u0.wav") (by decide)

/-- C1 (amended): the temp file that `audiofile_read` itself allocates for
decoding a non-`.wav` input is never on disk when the call completes — the
`finally` block removes it on success and failure alike.  (The original
claim fails for the resampling temp file: see `c1_counterexample`.) -/
theorem audiofile_read_decode_temp_removed (env : Env) (f : String)
    (n v : Bool) (w : World) (hext : strLower (splitext f).2 ≠ ".wav")
    (hf : f ∈ w.files) :
    tmpName env w ∉ (audiofile_read env f n v w).2.files := by
  have hf' : ¬ (f ∉ w.files) := not_not_intro hf
  simp only [audiofile_read, get_temp_filename]
  rw [if_neg hf', if_neg hext]
  split <;>
  · rename_i w3 heq
    simpa [tmpName] using not_mem_removeIfExists
      (env.tmpdir ++ "/" ++ env.uuidName w.tempCtr ++ ".wav") w3

/-- Witness for C1 (amended): successful decode of `b.mp3`. -/
theorem audiofile_read_decode_temp_removed_witness :
    tmpName envB wB ∉ (audiofile_read envB "b.mp3" true false wB).2.files :=
  audiofile_read_decode_temp_removed envB "b.mp3" true false wB (by decide) (by decide)

theorem mem_map_fst_head (cmd : List String) (types : TypeSpec)
    (rest : List (List String × TypeSpec)) :
    cmd ∈ ((cmd, types) :: rest).map Prod.fst := by
  rw [List.map_cons]
  exact List.mem_cons_self _ _

theorem mem_map_fst_tail (c : List String) (p : List String × TypeSpec)
    (rest : List (List String × TypeSpec)) (h : c ∈ rest.map Prod.fst) :
    c ∈ (p :: rest).map Prod.fst := by
  rw [List.map_cons]
  exact List.mem_cons_of_mem _ h

theorem decodeLoop_calls (env : Env) (ext : String) :
    ∀ (cands : List (List String × TypeSpec)) (w : World),
      ∀ c ∈ (decodeLoop env ext cands w).2.calls,
        c ∈ w.calls ∨ c ∈ cands.map Prod.fst := by
  intro cands
  induction cands with
  | nil => intro w c hc; exact Or.inl (by simpa [decodeLoop] using hc)
  | cons p rest ih =>
    intro w c hc
    obtain ⟨cmd, types⟩ := p
    by_cases hm : extMatches ext types = true
    · simp only [decodeLoop, hm, if_true] at hc
      split at hc
      · rename_i code w1 heq
        have hw1 : w1.calls = w.calls ++ [cmd] := by
          have h := callProc_calls env cmd w
          rw [heq] at h
          exact h
        have hc1 : c ∈ w1.calls := by
          split at hc
          · simpa using hc
          · simpa using hc
        rw [hw1] at hc1
        rcases List.mem_append.mp hc1 with h | h
        · exact Or.inl h
        · have hcc : c = cmd := List.mem_singleton.mp h
          exact Or.inr (hcc ▸ mem_map_fst_head cmd types rest)
      · rename_i e w1 heq
        have hw1 : w1.calls = w.calls ++ [cmd] := by
          have h := callProc_calls env cmd w
          rw [heq] at h
          exact h
        split at hc
        · rcases ih w1 c hc with h | h
          · rw [hw1] at h
            rcases List.mem_append.mp h with h | h
            · exact Or.inl h
            · have hcc : c = cmd := List.mem_singleton.mp h
              exact Or.inr (hcc ▸ mem_map_fst_head cmd types rest)
          · exact Or.inr (mem_map_fst_tail c _ rest h)
        · have hc1 : c ∈ w1.calls := by simpa using hc
          rw [hw1] at hc1
          rcases List.mem_append.mp hc1 with h | h
          · exact Or.inl h
          · have hcc : c = cmd := List.mem_singleton.mp h
            exact Or.inr (hcc ▸ mem_map_fst_head cmd types rest)
        · have hc1 : c ∈ w1.calls := by simpa using hc
          rw [hw1] at hc1
          rcases List.mem_append.mp hc1 with h | h
          · exact Or.inl h
          · have hcc : c = cmd := List.mem_singleton.mp h
            exact Or.inr (hcc ▸ mem_map_fst_head cmd types rest)
    · simp only [decodeLoop, hm, if_false] at hc
      rcases ih w c hc with h | h
      · exact Or.inl h
      · exact Or.inr (mem_map_fst_tail c _ rest h)

theorem decodeLoop_logs (env : Env) (ext : String) :
    ∀ (cands : List (List String × TypeSpec)) (w : World),
      (decodeLoop env ext cands w).2.logs = w.logs := by
  intro cands
  induction cands with
  | nil => intro w; simp [decodeLoop]
  | cons p rest ih =>
    intro w
    obtain ⟨cmd, types⟩ := p
    by_cases hm : extMatches ext types = true
    · simp only [decodeLoop, hm, if_true]
      split
      · rename_i code w1 heq
        have hw1 : w1.logs = w.logs := by
          have h := callProc_logs env cmd w
          rw [heq] at h
          exact h
        split <;> simpa using hw1
      · rename_i e w1 heq
        have hw1 : w1.logs = w.logs := by
          have h := callProc_logs env cmd w
          rw [heq] at h
          exact h
        split
        · rw [ih w1, hw1]
        · simpa using hw1
        · simpa using hw1
    · simp only [decodeLoop, hm, if_false]
      exact ih w

theorem decodeLoop_files_mono (env : Env) (ext : String) :
    ∀ (cands : List (List String × TypeSpec)) (w : World) (p : String),
      p ∈ w.files → p ∈ (decodeLoop env ext cands w).2.files := by
  intro cands
  induction cands with
  | nil => intro w p hp; simpa [decodeLoop] using hp
  | cons q rest ih =>
    intro w p hp
    obtain ⟨cmd, types⟩ := q
    by_cases hm : extMatches ext types = true
    · simp only [decodeLoop, hm, if_true]
      split
      · rename_i code w1 heq
        have hw1 : p ∈ w1.files := by
          have h := callProc_files_mono env cmd w p hp
          rw [heq] at h
          exact h
        split <;> simpa using hw1
      · rename_i e w1 heq
        have hw1 : p ∈ w1.files := by
          have h := callProc_files_mono env cmd w p hp
          rw [heq] at h
          exact h
        split
        · exact ih w1 p hw1
        · simpa using hw1
        · simpa using hw1
    · simp only [decodeLoop, hm, if_false]
      exact ih w p hp


/-- C3 (amended): `decode` determines the output path — the caller-supplied
`out_filename` when given, otherwise the input basename + `.wav` — and every
decoder command it invokes carries that path; but on success it returns
`None` (the Python function has no `return` statement), not the path. -/
theorem decode_out_path (env : Env) (f : String) (o : Option String)
    (v : Bool) (w : World) :
    (∀ r, (decode env f o v w).1 = Except.ok r → r = none) ∧
    (∀ c ∈ (decode env f o v w).2.calls, c ∉ w.calls →
      (o.getD ((splitext f).1 ++ ".wav")) ∈ c) := by
  constructor
  · intro r hr
    simp only [decode] at hr
    split at hr
    · rename_i success w1 heq
      split at hr
      · exact (Except.ok.inj hr).symm
      · exact absurd hr (by simp)
    · rename_i e w1 heq
      exact absurd hr (by simp)
  · intro c hc hnew
    simp only [decode] at hc
    have hcands : c ∈ w.calls ∨
        c ∈ ([(decodeCmd1 f (o.getD ((splitext f).1 ++ ".wav")), cmd1_types),
              (decodeCmd2 f (o.getD ((splitext f).1 ++ ".wav")), cmd2_types),
              (decodeCmd3 f (o.getD ((splitext f).1 ++ ".wav")), cmd3_types)]).map Prod.fst := by
      split at hc
      · rename_i success w1 heq
        have hc1 : c ∈ w1.calls := by
          split at hc <;> simpa using hc
        exact decodeLoop_calls env _ _ w c (by rw [heq]; exact hc1)
      · rename_i e w1 heq
        exact decodeLoop_calls env _ _ w c (by rw [heq]; simpa using hc)
    rcases hcands with h | h
    · exact absurd h hnew
    · have h3 : c = decodeCmd1 f (o.getD ((splitext f).1 ++ ".wav")) ∨
          c = decodeCmd2 f (o.getD ((splitext f).1 ++ ".wav")) ∨
          c = decodeCmd3 f (o.getD ((splitext f).1 ++ ".wav")) := by
        simpa using h
      rcases h3 with rfl | rfl | rfl <;>
        simp [decodeCmd1, decodeCmd2, decodeCmd3]

/-- Witness for C3 (amended): successful ffmpeg decode of `a.mp3`, whose
command carries the derived output path `a.wav`. -/
theorem decode_out_path_witness :
    ((none : Option String) = none) ∧
    ("a.wav" ∈ decodeCmd1 "a.mp3" "a.wav") := by
  constructor
  · exact (decode_out_path env3 "a.mp3" none true w3).1 none rfl
  · exact (decode_out_path env3 "a.mp3" none true w3).2
      (decodeCmd1 "a.mp3" "a.wav") (by decide) (by decide)

theorem decode_files_mono (env : Env) (f : String) (o : Option String)
    (v : Bool) (w : World) (p : String) (hp : p ∈ w.files) :
    p ∈ (decode env f o v w).2.files := by
  simp only [decode]
  split
  · rename_i success w1 heq
    have h := decodeLoop_files_mono env (strLower (splitext f).2)
      [(decodeCmd1 f (o.getD ((splitext f).1 ++ ".wav")), cmd1_types),
       (decodeCmd2 f (o.getD ((splitext f).1 ++ ".wav")), cmd2_types),
       (decodeCmd3 f (o.getD ((splitext f).1 ++ ".wav")), cmd3_types)] w p hp
    rw [heq] at h
    split <;> simpa using h
  · rename_i e w1 heq
    have h := decodeLoop_files_mono env (strLower (splitext f).2)
      [(decodeCmd1 f (o.getD ((splitext f).1 ++ ".wav")), cmd1_types),
       (decodeCmd2 f (o.getD ((splitext f).1 ++ ".wav")), cmd2_types),
       (decodeCmd3 f (o.getD ((splitext f).1 ++ ".wav")), cmd3_types)] w p hp
    rw [heq] at h
    simpa using h

theorem decode_logs (env : Env) (f : String) (o : Option String)
    (v : Bool) (w : World) :
    (decode env f o v w).2.logs = w.logs := by
  simp only [decode]
  split
  · rename_i success w1 heq
    have h := decodeLoop_logs env (strLower (splitext f).2)
      [(decodeCmd1 f (o.getD ((splitext f).1 ++ ".wav")), cmd1_types),
       (decodeCmd2 f (o.getD ((splitext f).1 ++ ".wav")), cmd2_types),
       (decodeCmd3 f (o.getD ((splitext f).1 ++ ".wav")), cmd3_types)] w
    rw [heq] at h
    split <;> simpa using h
  · rename_i e w1 heq
    have h := decodeLoop_logs env (strLower (splitext f).2)
      [(decodeCmd1 f (o.getD ((splitext f).1 ++ ".wav")), cmd1_types),
       (decodeCmd2 f (o.getD ((splitext f).1 ++ ".wav")), cmd2_types),
       (decodeCmd3 f (o.getD ((splitext f).1 ++ ".wav")), cmd3_types)] w
    rw [heq] at h
    simpa using h

theorem splitext_concat (p : String) : (splitext p).1 ++ (splitext p).2 = p := by
  simp only [splitext]
  split
  · split
    · have h1 : String.mk (List.take ((match lastIdx '.' p.toList with
          | some i => (i : Int) | none => -1).toNat) p.toList) ++
          String.mk (List.drop ((match lastIdx '.' p.toList with
          | some i => (i : Int) | none => -1).toNat) p.toList) =
          String.mk (p.toList) := by
        show String.mk _ = String.mk _
        rw [List.take_append_drop]
      simpa using h1
    · simp
  · simp


/-- C4 (amended): when the inner `decode` raises a `DecoderException`
(decoder ran and exited nonzero, or launch failed with errno other than 2),
`convert_to_wav` does not propagate it: it returns the original path, the
partial `.wav` output is removed, the original file is still present, and a
non-fatal error line is logged.  (The NoDecoderFound `OSError` is *not*
downgraded: see `c4_counterexample`.) -/
theorem convert_to_wav_downgrades_decoder_exception (env : Env) (f : String)
    (v : Bool) (w : World) (m : String) (cmdE : List String)
    (hf : f ∈ w.files) (hext : strLower (splitext f).2 ≠ ".wav")
    (hdec : (decode env f (some ((splitext f).1 ++ ".wav")) v w).1 =
      Except.error (Err.decoderException m cmdE)) :
    (convert_to_wav env f v w).1 = Except.ok f ∧
    ((splitext f).1 ++ ".wav") ∉ (convert_to_wav env f v w).2.files ∧
    f ∈ (convert_to_wav env f v w).2.files ∧
    (convert_to_wav env f v w).2.logs = w.logs ++ ["ERROR DECODING FILE: " ++ f] := by
  have hf' : ¬ (f ∉ w.files) := not_not_intro hf
  have hfo : f ≠ (splitext f).1 ++ ".wav" := by
    intro hEq
    apply hext
    have hcat := splitext_concat f
    have hboth : (splitext f).1 ++ (splitext f).2 = (splitext f).1 ++ ".wav" := by
      rw [hcat]; exact hEq
    have h2 : (splitext f).2 = ".wav" := by
      have hl := congrArg String.data hboth
      simp only [String.data_append] at hl
      exact String.ext (List.append_cancel_left hl)
    rw [h2]
    rfl
  simp only [convert_to_wav, mp3_decode]
  rw [if_neg hf', if_neg hext]
  rcases hd : decode env f (some ((splitext f).1 ++ ".wav")) v w with ⟨r, w1⟩
  have hr : r = Except.error (Err.decoderException m cmdE) := by
    rw [hd] at hdec; exact hdec
  subst hr
  refine ⟨rfl, ?_, ?_, ?_⟩
  · exact not_mem_removeIfExists ((splitext f).1 ++ ".wav") w1
  · have hf1 : f ∈ w1.files := by
      have h := decode_files_mono env f (some ((splitext f).1 ++ ".wav")) v w f hf
      rw [hd] at h
      exact h
    exact mem_removeIfExists_of_ne ((splitext f).1 ++ ".wav") f w1 hf1 hfo
  · show (removeIfExists ((splitext f).1 ++ ".wav") w1).2.logs ++
      ["ERROR DECODING FILE: " ++ f] = w.logs ++ ["ERROR DECODING FILE: " ++ f]
    have h1 : (removeIfExists ((splitext f).1 ++ ".wav") w1).2.logs = w1.logs :=
      (removeIfExists_world ((splitext f).1 ++ ".wav") w1).2.2.1
    have h2 : w1.logs = w.logs := by
      have h := decode_logs env f (some ((splitext f).1 ++ ".wav")) v w
      rw [hd] at h
      exact h
    rw [h1, h2]

/-- Witness for C4 (amended): ffmpeg runs on `a.mp3` but exits with code 1,
leaving a partial `a.wav` that `convert_to_wav` cleans up. -/
theorem convert_to_wav_downgrades_decoder_exception_witness :
    (convert_to_wav env4w "a.mp3" true w3).1 = Except.ok "a.mp3" ∧
    ((splitext "a.mp3").1 ++ ".wav") ∉ (convert_to_wav env4w "a.mp3" true w3).2.files ∧
    "a.mp3" ∈ (convert_to_wav env4w "a.mp3" true w3).2.files ∧
    (convert_to_wav env4w "a.mp3" true w3).2.logs =
      w3.logs ++ ["ERROR DECODING FILE: " ++ "a.mp3"] :=
  convert_to_wav_downgrades_decoder_exception env4w "a.mp3" true w3
    "Problem appeared during decoding." (decodeCmd1 "a.mp3" "a.wav")
    (by decide) (by decide) rfl

/-- Helper: the exact call-trace shape of `resample` (the resampling command
is always attempted first, possibly followed by the bare-binary probe), and
its return value on success is the allocated temp name. -/
theorem resample_shape (env : Env) (f : String) (r2 : Nat) (n v : Bool) (w : World) :
    ((resample env f r2 n v w).2.calls =
        w.calls ++ [resampleCmd f r2 (tmpName env w)] ∨
     (resample env f r2 n v w).2.calls =
        w.calls ++ [resampleCmd f r2 (tmpName env w), ["ffmpeg"]]) ∧
    (∀ t, (resample env f r2 n v w).1 = Except.ok t → t = tmpName env w) := by
  constructor
  · simp only [resample, get_temp_filename]
    split
    · rename_i code w2 heq
      have hw2 : w2.calls = w.calls ++ [resampleCmd f r2 (tmpName env w)] := by
        have hx := callProc_calls env
          (resampleCmd f r2 (env.tmpdir ++ "/" ++ env.uuidName w.tempCtr ++ ".wav"))
          { w with tempCtr := w.tempCtr + 1,
                   temps := w.temps ++ [env.tmpdir ++ "/" ++ env.uuidName w.tempCtr ++ ".wav"] }
        rw [heq] at hx
        simpa [tmpName] using hx
      left
      split <;> simpa using hw2
    · rename_i e w2 heq
      have hw2 : w2.calls = w.calls ++ [resampleCmd f r2 (tmpName env w)] := by
        have hx := callProc_calls env
          (resampleCmd f r2 (env.tmpdir ++ "/" ++ env.uuidName w.tempCtr ++ ".wav"))
          { w with tempCtr := w.tempCtr + 1,
                   temps := w.temps ++ [env.tmpdir ++ "/" ++ env.uuidName w.tempCtr ++ ".wav"] }
        rw [heq] at hx
        simpa [tmpName] using hx
      have h3 : (removeIfExists
          (env.tmpdir ++ "/" ++ env.uuidName w.tempCtr ++ ".wav") w2).2.calls = w2.calls :=
        (removeIfExists_world (env.tmpdir ++ "/" ++ env.uuidName w.tempCtr ++ ".wav") w2).1
      split
      · split
        · rename_i a w4 heq2
          have h4 : w4.calls = (removeIfExists
              (env.tmpdir ++ "/" ++ env.uuidName w.tempCtr ++ ".wav") w2).2.calls
                ++ [["ffmpeg"]] := by
            have hx := callProc_calls env ["ffmpeg"]
              (removeIfExists (env.tmpdir ++ "/" ++ env.uuidName w.tempCtr ++ ".wav") w2).2
            rw [heq2] at hx
            exact hx
          right
          show w4.calls = _
          rw [h4, h3, hw2]
          simp
        · rename_i e2 w4 heq2
          have h4 : w4.calls = (removeIfExists
              (env.tmpdir ++ "/" ++ env.uuidName w.tempCtr ++ ".wav") w2).2.calls
                ++ [["ffmpeg"]] := by
            have hx := callProc_calls env ["ffmpeg"]
              (removeIfExists (env.tmpdir ++ "/" ++ env.uuidName w.tempCtr ++ ".wav") w2).2
            rw [heq2] at hx
            exact hx
          right
          rcases e2 with m | ⟨errno, msg⟩ | ⟨dm, dc⟩ | m <;>
          · show w4.calls = _
            rw [h4, h3, hw2]
            simp
      · left
        show (removeIfExists (env.tmpdir ++ "/" ++ env.uuidName w.tempCtr ++ ".wav") w2).2.calls = _
        rw [h3, hw2]
      · left
        show (removeIfExists (env.tmpdir ++ "/" ++ env.uuidName w.tempCtr ++ ".wav") w2).2.calls = _
        rw [h3, hw2]
  · intro t ht
    simp only [resample, get_temp_filename] at ht
    split at ht
    · rename_i code w2 heq
      split at ht
      · exact absurd ht (by simp)
      · simpa [tmpName] using (Except.ok.inj ht).symm
    · rename_i e w2 heq
      split at ht
      · split at ht
        · exact absurd ht (by simp)
        · rename_i e2 w4 heq2
          rcases e2 with m | ⟨errno, msg⟩ | ⟨dm, dc⟩ | m <;>
            exact absurd ht (by simp)
      · exact absurd ht (by simp)
      · exact absurd ht (by simp)


/-- C8: in `wav_read` with auto-resampling, when the parsed sample rate `r`
is not in {11025, 22050, 44100}, the external resampler is invoked — the
first new subprocess attempt is `ffmpeg ... -ar t` with target
`t = 44100` if `r ≥ 22050` and `t = 22050` if `r < 22050` — and any
successfully returned result is the re-parse of the resampled temp WAV. -/
theorem wav_read_resamples (env : Env) (f : String) (n v : Bool) (w : World)
    (r sw : Nat) (hf : f ∈ w.files) (hrw : env.readwav f = some (r, sw))
    (h1 : r ≠ 11025) (h2 : r ≠ 22050) (h3 : r ≠ 44100) :
    (∃ rest, (wav_read env f n v true w).2.calls =
      w.calls ++ resampleCmd f (if r < 22050 then 22050 else 44100)
        (tmpName env w) :: rest) ∧
    (∀ res, (wav_read env f n v true w).1 = Except.ok res →
      env.readwav (tmpName env w) = some res) := by
  have hf' : ¬ (f ∉ w.files) := not_not_intro hf
  obtain ⟨hshape, hokval⟩ :=
    resample_shape env f (if r < 22050 then 22050 else 44100) true v w
  have hrd : readwavM env f w = (Except.ok (r, sw), w) := by
    simp [readwavM, hf, hrw]
  have hwav : wav_read env f n v true w =
      (match resample env f (if r < 22050 then 22050 else 44100) true v w with
       | (Except.ok f2, w2) => readwavM env f2 w2
       | (Except.error e, w2) => (Except.error e, w2)) := by
    simp only [wav_read]
    rw [if_neg hf', hrd]
    exact if_pos ⟨trivial, h1, h2, h3⟩
  rw [hwav]
  rcases hres : resample env f (if r < 22050 then 22050 else 44100) true v w
    with ⟨rr, w2⟩
  rw [hres] at hshape hokval
  rcases rr with e | f2
  · constructor
    · rcases hshape with hs | hs
      · exact ⟨[], hs⟩
      · exact ⟨[["ffmpeg"]], hs⟩
    · intro res hresOk
      exact absurd hresOk (by simp)
  · have hf2 : f2 = tmpName env w := hokval f2 rfl
    subst hf2
    have hrd2 : (readwavM env (tmpName env w) w2).2 = w2 :=
      readwavM_world env (tmpName env w) w2
    constructor
    · rcases hshape with hs | hs
      · exact ⟨[], by rw [hrd2]; exact hs⟩
      · exact ⟨[["ffmpeg"]], by rw [hrd2]; exact hs⟩
    · intro res hresOk
      by_cases hmem : tmpName env w ∈ w2.files
      · rcases hT : env.readwav (tmpName env w) with _ | rt
        · simp only [readwavM, hmem, hT, if_true] at hresOk
          exact absurd hresOk (by simp)
        · simp only [readwavM, hmem, hT, if_true] at hresOk
          exact congrArg some (Except.ok.inj hresOk)
      · simp only [readwavM, hmem, if_false] at hresOk
        exact absurd hresOk (by simp)

/-- Witness for C8 on a 48 kHz input. -/
theorem wav_read_resamples_witness :
    (∃ rest, (wav_read env8 "c.wav" true false true w8).2.calls =
      w8.calls ++ resampleCmd "c.wav" (if 48000 < 22050 then 22050 else 44100)
        (tmpName env8 w8) :: rest) ∧
    (∀ res, (wav_read env8 "c.wav" true false true w8).1 = Except.ok res →
      env8.readwav (tmpName env8 w8) = some res) :=
  wav_read_resamples env8 "c.wav" true false w8 48000 2 (by decide) rfl
    (by decide) (by decide) (by decide)

/-- C9: extension classification is case-insensitive — the extension is
lowercased before comparison, so any-cased `.wav` paths go straight to
`wav_read` in `audiofile_read` and are a logged no-op in `convert_to_wav`,
and any-cased `.mp3` paths match all three decoder candidates of
`decode`. -/
theorem extension_case_insensitive (env : Env) (f : String) (n v : Bool) (w : World) :
    (f ∈ w.files → strLower (splitext f).2 = ".wav" →
      audiofile_read env f n v w = wav_read env f n v true w) ∧
    (f ∈ w.files → strLower (splitext f).2 = ".wav" →
      convert_to_wav env f v w =
        (Except.ok f,
          { w with logs := w.logs ++ ["It is a wav file. No conversion needed"] })) ∧
    (strLower (splitext f).2 = ".mp3" →
      extMatches (strLower (splitext f).2) cmd1_types = true ∧
      extMatches (strLower (splitext f).2) cmd2_types = true ∧
      extMatches (strLower (splitext f).2) cmd3_types = true) := by
  refine ⟨?_, ?_, ?_⟩
  · intro hf hext
    simp only [audiofile_read]
    rw [if_neg (not_not_intro hf), if_pos hext]
  · intro hf hext
    simp only [convert_to_wav]
    rw [if_neg (not_not_intro hf), if_pos hext]
  · intro hext
    rw [hext]
    exact ⟨rfl, rfl, rfl⟩

/-- Witness for C9 at the upper-cased paths `A.WAV` and `b.MP3`. -/
theorem extension_case_insensitive_witness :
    (audiofile_read env8 "A.WAV" true false w9 =
      wav_read env8 "A.WAV" true false true w9) ∧
    (convert_to_wav env8 "A.WAV" false w9 =
      (Except.ok "A.WAV",
        { w9 with logs := w9.logs ++ ["It is a wav file. No conversion needed"] })) ∧
    (extMatches (strLower (splitext "b.MP3").2) cmd1_types = true ∧
     extMatches (strLower (splitext "b.MP3").2) cmd2_types = true ∧
     extMatches (strLower (splitext "b.MP3").2) cmd3_types = true) :=
  ⟨(extension_case_insensitive env8 "A.WAV" true false w9).1 (by decide) (by decide),
   (extension_case_insensitive env8 "A.WAV" true false w9).2.1 (by decide) (by decide),
   (extension_case_insensitive env8 "b.MP3" true false w9).2.2 (by decide)⟩

end RpExtract
